import Mathlib

/-!
Shallow embedding of the deck-compilation pipeline of
`src/generate_deck_pdfs.py` (card-name normalization, deck-file parsing,
image resolution, grouping/deduplication, and page packing), together with
theorems settling the specification claims about it.

File-system state is modelled as the list of paths that exist; Python
strings are Lean `String`s (ASCII approximations are noted where Python's
regex classes are Unicode-aware).
-/

set_option maxRecDepth 10000

/-- ASCII approximation of the Python regex class `\s`. -/
def isWs (c : Char) : Bool :=
  c = ' ' || c = '\t' || c = '\n' || c = '\r' || c = Char.ofNat 11 || c = Char.ofNat 12

/-- ASCII approximation of the Python regex class `\w` (alphanumeric or underscore). -/
def isWord (c : Char) : Bool := c.isAlphanum || c = '_'

/-- The apostrophe character. -/
def apos : Char := Char.ofNat 39

/-- Drop whitespace from both ends of a character list. -/
def stripEnds (l : List Char) : List Char :=
  ((l.dropWhile isWs).reverse.dropWhile isWs).reverse

/-- Python `str.strip()`. -/
def pyStrip (s : String) : String := String.mk (stripEnds s.data)

/-- Scan forward to the first close paren; return the remainder after it
(the greedy run matched by a bracketed negative class followed by the literal close). -/
def dropToClose : List Char → Option (List Char)
  | [] => none
  | c :: cs => if c = ')' then some cs else dropToClose cs

/-- Does a `\s*`-then-parenthesized-group match start at the head of `l`?
Returns the remainder after the matched group. -/
def matchParen (l : List Char) : Option (List Char) :=
  match l.dropWhile isWs with
  | '(' :: r => dropToClose r
  | _ => none

/-- Fueled worker for `rmParens` (fuel bounds the number of scanned positions). -/
def rmParensF : Nat → List Char → List Char
  | 0, l => l
  | _ + 1, [] => []
  | fuel + 1, c :: cs =>
    match matchParen (c :: cs) with
    | some rest => rmParensF fuel rest
    | none => c :: rmParensF fuel cs

/-- Line 13: delete every leftmost match of optional whitespace followed by a
parenthesized group (Python `re.sub` with empty replacement). -/
def rmParens (l : List Char) : List Char := rmParensF l.length l

/-- Line 15: delete a leading digit run, a dot, and following whitespace, if present. -/
def stripOrdinal (l : List Char) : List Char :=
  let ds := l.takeWhile Char.isDigit
  if ds.isEmpty then l
  else
    match l.drop ds.length with
    | c :: rest => if c = '.' then rest.dropWhile isWs else l
    | [] => l

/-- Line 23: collapse runs of hyphens to a single hyphen. -/
def collapseHy : List Char → List Char
  | [] => []
  | [c] => [c]
  | c1 :: c2 :: cs =>
    if c1 = '-' && c2 = '-' then collapseHy (c2 :: cs)
    else c1 :: collapseHy (c2 :: cs)

/-- Line 25: Python `str.rstrip('-')`, removing all trailing hyphens. -/
def rstripHy : List Char → List Char
  | [] => []
  | c :: cs =>
    match rstripHy cs with
    | [] => if c = '-' then [] else [c]
    | r => c :: r

/-- `clean_card_name` of `src/generate_deck_pdfs.py` lines 10-26: remove
parenthetical content, remove a leading ordinal, replace apostrophes and
spaces with hyphens, drop the remaining non-word non-hyphen characters,
collapse hyphen runs and strip trailing hyphens. -/
def clean_card_name (s : String) : String :=
  let l1 := rmParens s.data
  let l2 := stripOrdinal l1
  let l3 := l2.map fun c => if c = apos then '-' else c
  let l4 := l3.map fun c => if c = ' ' then '-' else c
  let l5 := l4.filter fun c => isWord c || c = '-'
  String.mk (rstripHy (collapseHy l5))

/-- Return the first value produced by `f` along the list, in order
(backtracking priority of the regex engine). -/
def firstSome {α β : Type} (f : α → Option β) : List α → Option β
  | [] => none
  | a :: as =>
    match f a with
    | some b => some b
    | none => firstSome f as

/-- All splits of `l` into a whitespace run and the remainder, greedy
(longest whitespace run) first. -/
def wsSplits (l : List Char) : List (List Char × List Char) :=
  let k := (l.takeWhile isWs).length
  ((List.range (k + 1)).reverse).map fun i => (l.take i, l.drop i)

/-- All splits of `l` into a nonempty prefix and the remainder, lazy
(shortest prefix) first. -/
def nameSplits (l : List Char) : List (List Char × List Char) :=
  (List.range l.length).map fun i => (l.take (i + 1), l.drop (i + 1))

/-- Match a literal character sequence at the head; return the remainder. -/
def dropLit : List Char → List Char → Option (List Char)
  | [], r => some r
  | _ :: _, [] => none
  | n :: ns, c :: cs => if n = c then dropLit ns cs else none

/-- The literal opening of the identifier annotation in the line-61 regex. -/
def edoLit : List Char := "(EDOPro:".data

/-- The literal middle of the copies keyword in the line-61 regex. -/
def opieLit : List Char := "opie".data

/-- Split at the first close paren: the characters before it and the remainder after. -/
def splitAtClose : List Char → Option (List Char × List Char)
  | [] => none
  | c :: cs =>
    if c = ')' then some ([], cs)
    else
      match splitAtClose cs with
      | some (a, b) => some (c :: a, b)
      | none => none

/-- Attempt the optional identifier group of the line-61 regex: optional
whitespace, the literal opening, optional whitespace, a nonempty run of
non-close-paren characters (captured), and the close paren.  Returns the
captured run and the remainder.  The inner whitespace run is greedy but
backtracks one character when the capture would otherwise be empty. -/
def tryEdo (rest : List Char) : Option (List Char × List Char) :=
  match dropLit edoLit (rest.dropWhile isWs) with
  | some r2 =>
    match splitAtClose r2 with
    | some (inner, r3) =>
      if inner.isEmpty then none
      else if inner.all isWs then
        match inner.reverse with
        | c :: _ => some ([c], r3)
        | [] => none
      else some (inner.dropWhile isWs, r3)
    | none => none
  | none => none

/-- Attempt the optional copies group of the line-61 regex against the whole
remainder: open paren, captured digit run, optional whitespace, `C` or `c`,
`opie`, optional `s`, close paren, end of line.  Returns the digit run. -/
def matchCopies (r : List Char) : Option (List Char) :=
  match r with
  | '(' :: r1 =>
    let ds := r1.takeWhile Char.isDigit
    if ds.isEmpty then none
    else
      match (r1.drop ds.length).dropWhile isWs with
      | c :: r3 =>
        if c = 'C' || c = 'c' then
          match dropLit opieLit r3 with
          | some r4 =>
            if r4 = [')'] then some ds
            else if r4 = [Char.ofNat 115, ')'] then some ds
            else none
          | none => none
        else none
      | [] => none
  | _ => none

/-- After the identifier group (or directly after the name): optional
whitespace, then either end of line (no copies group) or the copies group
reaching the end of line. -/
def afterEdo (r : List Char) : Option (Option (List Char)) :=
  let r2 := r.dropWhile isWs
  if r2.isEmpty then some none
  else
    match matchCopies r2 with
    | some ds => some (some ds)
    | none => none

/-- The tail of the line-61 regex after the name capture: the identifier
group is tried first (regex optional groups prefer presence), falling back
to its absence. -/
def afterOpt (rest : List Char) : Option (Option (List Char) × Option (List Char)) :=
  match tryEdo rest with
  | some (id, r2) =>
    match afterEdo r2 with
    | some cnt => some (some id, cnt)
    | none =>
      match afterEdo rest with
      | some cnt => some (none, cnt)
      | none => none
  | none =>
    match afterEdo rest with
    | some cnt => some (none, cnt)
    | none => none

/-- The body of the line-61 regex after the mandatory digits-dot prefix:
greedy leading whitespace, lazy nonempty name capture, then `afterOpt`.
Returns (name capture, identifier capture, copies capture). -/
def matchBody (cs : List Char) : Option (List Char × Option (List Char) × Option (List Char)) :=
  firstSome (fun w1 =>
    firstSome (fun nm =>
      match afterOpt nm.2 with
      | some (id, cnt) => some (nm.1, id, cnt)
      | none => none)
      (nameSplits w1.2))
    (wsSplits cs)

/-- Python `int` on a digit run. -/
def digitsToNat (l : List Char) : Nat :=
  l.foldl (fun a c => a * 10 + (c.toNat - 48)) 0

/-- The full line-61 regex plus the capture processing of lines 63-65:
name stripped, identifier stripped when present, count defaulting to 1. -/
def parseCardLine (l : List Char) : Option (String × Option String × Nat) :=
  let ds := l.takeWhile Char.isDigit
  if ds.isEmpty then none
  else
    match l.drop ds.length with
    | c :: rest =>
      if c = '.' then
        match matchBody rest with
        | some (nm, id, cnt) =>
          some (pyStrip (String.mk nm),
                id.map (fun i => pyStrip (String.mk i)),
                match cnt with
                | some dds => digitsToNat dds
                | none => 1)
        | none => none
      else none
    | [] => none

/-- One parsed card record (the dict appended at lines 67-72). -/
structure Card where
  name : String
  type : String
  count : Nat
  edopro_id : Option String
deriving DecidableEq

/-- The per-line loop of `parse_deck_new_format` (lines 36-72), carrying the
current section state. -/
def parseGo : List String → Option String → List Card
  | [], _ => []
  | raw :: rest, current =>
    let line := pyStrip raw
    if line = "EXTRA DECK:" then parseGo rest (some "Monster")
    else if line = "MONSTER CARDS:" then parseGo rest (some "Monster")
    else if line = "FUSION MONSTERS:" then parseGo rest (some "Monster")
    else if line = "RITUAL MONSTERS:" then parseGo rest (some "Monster")
    else if line = "SPELL CARDS:" then parseGo rest (some "Spell")
    else if line = "TRAP CARDS:" then parseGo rest (some "Trap")
    else
      match parseCardLine line.data, current with
      | some (nm, id, cnt), some ty =>
        { name := nm, type := ty, count := cnt, edopro_id := id } :: parseGo rest current
      | _, _ => parseGo rest current

/-- `parse_deck_new_format` of `src/generate_deck_pdfs.py` lines 28-74,
taken over the list of lines of the deck file. -/
def parse_deck_new_format (lines : List String) : List Card :=
  parseGo lines none

/-- Python `os.path.join` for the path shapes used here: an absolute second
component wins, an empty or slash-terminated directory is prepended as is,
and otherwise a slash separator is inserted. -/
def pathJoin (d f : String) : String :=
  if f.data.head? = some '/' then f
  else if d.data.isEmpty then f
  else if d.data.getLast? = some '/' then String.mk (d.data ++ f.data)
  else String.mk (d.data ++ '/' :: f.data)

/-- Does `needle` occur at the head of `hay`? -/
def subAt : List Char → List Char → Bool
  | [], _ => true
  | _ :: _, [] => false
  | n :: ns, c :: cs => n = c && subAt ns cs

/-- Does `hay` contain `needle` as a contiguous run? -/
def hasSubAux (needle : List Char) : List Char → Bool
  | [] => subAt needle []
  | c :: cs => subAt needle (c :: cs) || hasSubAux needle cs

/-- Python `needle in hay` on strings. -/
def strContains (hay needle : String) : Bool := hasSubAux needle.data hay.data

/-- `get_card_descriptions` of `src/generate_deck_pdfs.py` lines 76-108,
as a lookup (Python `dict.get`): descriptions for cards missing art. -/
def get_card_descriptions (name : String) : Option String :=
  if name = "Blue-Eyes Ultimate Dragon" then
    some ("Fusion Material: \"Blue-Eyes White Dragon\" + \"Blue-Eyes White Dragon\" + \"Blue-Eyes White Dragon\"\n\nThis legendary dragon is a powerful engine of destruction. Virtually invincible, very few have faced this awesome creature and lived to tell the tale.")
  else if name = "Absolute Lord of D." then
    some ("Level 4 DARK Spellcaster Effect Monster\nATK 1200 DEF 1100\n\n[REQUIREMENT] During the turn this card is Normal or Special Summoned.\n[EFFECT] Excavate the top 4 cards of your Deck and reveal them. You can choose up to 1 each of a Level 8 LIGHT Dragon monster and \"The Ultimate Blue-Eyed Legend\" among the excavated cards and add them to the hand, also, shuffle the remaining cards back into the Deck.")
  else if name = "Node of Legend" then
    some ("Level 4 EARTH Dragon Effect Monster\nATK 1300 DEF 0\n\n[REQUIREMENT] During the turn this card was Normal Summoned.\n[EFFECT] Send the top card of your Deck to the Graveyard. Then, you can add 1 \"The Origin Stone of Legend\" or \"Sanctum of Legend\" from your Graveyard to your hand.")
  else if name = "Soul Drake" then
    some ("Level 4 DARK Dragon Effect Monster\nATK 1100 DEF 600\n\n[REQUIREMENT] During your Main Phase that you Normal Summoned or Special Summoned this card, send 2 face-up Level 4 or lower Effect Monsters from your field to the Graveyard.\n[EFFECT] Special Summon 1 Level 8 LIGHT Attribute Dragon Type monster from your Graveyard face-up to your field. Your Level 7 or lower monsters cannot attack this turn.")
  else if name = "The Ultimate Blue-Eyed Legend" then
    some ("Normal Spell Card\n\n[EFFECT] Fusion Summon a Level 10 or higher Dragon monster by sending up to 3 Dragon monsters from your hand or field to the GY, also, during this turn, the monster Special Summoned by this effect cannot be destroyed by your opponent\u0027s effects.")
  else if name = "Phoenix Dragoon" then
    some ("Effect Monster (Rush Duel)\n\nEffect text unknown")
  else if name = "Light Effigy" then
    some ("Normal Monster (Rush Duel)\n\n\"If you Tribute Summon a LIGHT Normal Monster, you can treat this 1 monster as 2 Tributes.\"\n\nNote: Effect appears to be the same in Rush Duel format.")
  else if name = "The Fire Dragon" then
    some ("Normal Monster (Rush Duel)\n\nUsed as Tribute material")
  else if name = "Sylphidra" then
    some ("Normal Monster (Rush Duel)\nATK 1500 DEF 0 (approximate)")
  else if name = "Defender of Dragon Sorcerers" then
    some ("Effect Monster (Rush Duel)\n\nEffect text unknown")
  else if name = "Sanctum of Legend" then
    some ("Field Spell Card\n\n[REQUIREMENT] None\n[EFFECT] While this card is face-up in a Field Zone, face-up Level 8 or higher Dragon monsters gain 500 ATK and face-up Dragon Legend monsters cannot be destroyed by effects.")
  else if name = "Dragon\u0027s Inferno" then
    some ("Normal Spell Card\n\n[REQUIREMENT] You have a face-up Dragon Type monster on your field.\n[EFFECT] Destroy 1 Spell/Trap Card on your opponent\u0027s field.")
  else if name = "Treasure of Eyes of Blue" then
    some ("Normal Trap Card\n\n[REQUIREMENT] When a monster you control is destroyed by your opponent\u0027s attack or your opponent\u0027s effect.\n[EFFECT] Choose 1 Level 8 or higher LIGHT Dragon monster in your GY and Special Summon it to your field face-up, then, if you control a face-up \"Blue-Eyes White Dragon\", you can choose 1 card your opponent controls and destroy it.")
  else if name = "Blue-Eyes Bright Dragon" then
    some ("Level 8 Dragon Effect Monster\n\nThis card\u0027s name becomes \"Blue-Eyes White Dragon\" while in the hand.\n[REQUIREMENT] Send the top card of your Deck to the Graveyard.\n[EFFECT] This turn, this card\u0027s name becomes \"Blue-Eyes White Dragon\" and it gains 500 ATK. Then, if you have a face-up Legend Normal Monster on your field, you can destroy 1 face-up Level 8 or lower monster on your opponent\u0027s field.")
  else if name = "Blue-Eyes Vision Dragon" then
    some ("Level 8 Dragon Effect Monster\n\n[REQUIREMENT] Send the top card of your Deck to the Graveyard.\n[EFFECT] This turn, this card\u0027s name becomes \"Blue-Eyes White Dragon\", and if you Fusion Summon \"Blue-Eyes Ultimate Dragon\", this face-up card can be treated as 2 materials.")
  else none

/-- The `special_mappings` dict of `find_image_file` (lines 145-159),
keyed by cleaned name. -/
def special_mappings (k : String) : Option String :=
  if k = "Windcaster-Torna" then some ("Windcaster-Torna.jpg")
  else if k = "Answerer-the-Demonic-Swordsman" then some ("Answerer-the-Demonic-Sword.jpg")
  else if k = "Twin-Edge-Dragon" then some ("Double-Twin-Dragon.jpg")
  else if k = "Blue-Eyes-White-Dragon" then some ("Blue-Eyes-White-Dragon.jpg")
  else if k = "Dragorite" then some ("Dragolite.jpg")
  else if k = "Dragons-Priestess" then some ("Dragon-s-Priestess.jpg")
  else if k = "Fire-Dragons-Heatflash" then some ("Fire-Dragon-s-Heatflash.jpg")
  else if k = "Wind-Spirit-s-Blessing" then some ("Mystical-Elf.jpg")
  else none

/-- `find_image_file` of `src/generate_deck_pdfs.py` lines 110-166.
The file system is modelled by `files`, the list of existing paths.
Strategies, in order: identifier (a truthy one only — the line-114 check
`if edopro_id:` skips both an absent and an empty identifier — and only
inside a `Rush-HD` directory), exact cleaned name, cleaned name plus a
pluralizing `s`, cleaned name plus `-alt-art`, and the manual mapping
table. -/
def find_image_file (files : List String) (card_name image_dir : String)
    (edopro_id : Option String) : Option String :=
  let idHit : Option String :=
    match edopro_id with
    | some id =>
      if id.isEmpty then none
      else if strContains image_dir ("Rush-HD") then
        let p := pathJoin image_dir (id ++ ".png")
        if p ∈ files then some p else none
      else none
    | none => none
  match idHit with
  | some p => some p
  | none =>
    let cleaned := clean_card_name card_name
    let p1 := pathJoin image_dir (cleaned ++ ".jpg")
    if p1 ∈ files then some p1
    else
      let p2 := pathJoin image_dir (cleaned ++ "s.jpg")
      if p2 ∈ files then some p2
      else
        let p3 := pathJoin image_dir (cleaned ++ "-alt-art.jpg")
        if p3 ∈ files then some p3
        else
          match special_mappings cleaned with
          | some fn =>
            let p4 := pathJoin image_dir fn
            if p4 ∈ files then some p4 else none
          | none => none

/-- The per-card dict built at lines 290-294. -/
structure CardItem where
  name : String
  image_path : Option String
  description : Option String
deriving DecidableEq

/-- The mutable state of the grouping loop of `generate_deck_pdf`
(lines 278-284): per-section item lists, the dedup sets, and the report
of unresolved cards. -/
structure GState where
  monster_cards : List CardItem
  spell_cards : List CardItem
  trap_cards : List CardItem
  seen_cards : List String
  seen_images : List String
  missing_cards : List String
deriving DecidableEq

/-- The empty state at the top of the loop. -/
def initState : GState := ⟨[], [], [], [], [], []⟩

/-- Python truthiness of an optional string. -/
def pyTruthyS : Option String → Bool
  | some s => !s.isEmpty
  | none => false

/-- Append an item to the list selected by the card type
(lines 301-306 and 312-317). -/
def addItem (st : GState) (ty : String) (item : CardItem) : GState :=
  if ty = "Monster" then { st with monster_cards := st.monster_cards ++ [item] }
  else if ty = "Spell" then { st with spell_cards := st.spell_cards ++ [item] }
  else if ty = "Trap" then { st with trap_cards := st.trap_cards ++ [item] }
  else st

/-- The branch taken when the image path is falsy (lines 309-319): place the
item if a description exists, otherwise report the card as missing. -/
def descrStep (st : GState) (card : Card) (item : CardItem) : GState :=
  if pyTruthyS item.description then
    addItem { st with seen_cards := card.name :: st.seen_cards } card.type item
  else
    { st with missing_cards := st.missing_cards ++ [card.name] }

/-- One iteration of the grouping loop of `generate_deck_pdf`
(lines 286-319): skip already-seen names, resolve the image, then place by
image (dedup by image path), by description, or report as missing. -/
def stepCard (files : List String) (image_dir : String) (st : GState) (card : Card) : GState :=
  if card.name ∈ st.seen_cards then st
  else
    let img := find_image_file files card.name image_dir card.edopro_id
    let item : CardItem :=
      { name := card.name, image_path := img, description := get_card_descriptions card.name }
    match img with
    | some p =>
      if p.isEmpty then descrStep st card item
      else if p ∈ st.seen_images then st
      else
        addItem { st with seen_cards := card.name :: st.seen_cards,
                          seen_images := p :: st.seen_images } card.type item
    | none => descrStep st card item

/-- The whole grouping loop of `generate_deck_pdf` (lines 286-319). -/
def processCards (files : List String) (image_dir : String) (cards : List Card) : GState :=
  cards.foldl (stepCard files image_dir) initState

/-- Split a list into chunks of four (the `range(0, len, 4)` slicing at
lines 335-336). -/
def chunksOf4 {α : Type} : List α → List (List α)
  | [] => []
  | [a] => [[a]]
  | [a, b] => [[a, b]]
  | [a, b, c] => [[a, b, c]]
  | a :: b :: c :: d :: rest => [a, b, c, d] :: chunksOf4 rest

/-- The pages of one section (lines 330-336): nothing for an empty list,
otherwise one page per chunk of four, tagged with the section name. -/
def sectionPages (ty : String) (items : List CardItem) : List (String × List CardItem) :=
  if items.isEmpty then []
  else (chunksOf4 items).map fun pg => (ty, pg)

/-- The page sequence produced by the page loop of `generate_deck_pdf`
(lines 330-351): Monster, then Spell, then Trap sections. -/
def layoutPages (st : GState) : List (String × List CardItem) :=
  sectionPages "Monster" st.monster_cards ++
  sectionPages "Spell" st.spell_cards ++
  sectionPages "Trap" st.trap_cards

/-- `generate_deck_pdf` of `src/generate_deck_pdfs.py` lines 257-354, as the
data it computes: the grouping state (placed items, dedup sets, missing-card
report) and the packed pages handed to `create_pdf_page`. -/
def generate_deck_pdf (files : List String) (image_dir : String) (cards : List Card) :
    GState × List (String × List CardItem) :=
  let st := processCards files image_dir cards
  (st, layoutPages st)

/-- All items placed in the layout, in page order. -/
def placedItems (st : GState) : List CardItem :=
  st.monster_cards ++ st.spell_cards ++ st.trap_cards

/-- The fields of a parsed card other than its count. -/
def cardKey (c : Card) : String × String × Option String :=
  (c.name, c.type, c.edopro_id)

/-! ### Supporting lemmas about the normalization pipeline -/

/-- No adjacent pair of hyphens occurs in the list. -/
def noDD : List Char → Bool
  | c1 :: c2 :: cs => (!(c1 = '-' && c2 = '-')) && noDD (c2 :: cs)
  | _ => true

theorem mem_collapseHy {a : Char} : ∀ (l : List Char), a ∈ collapseHy l → a ∈ l
  | [], h => by simp [collapseHy] at h
  | [c], h => by simp [collapseHy] at h; simp [h]
  | c1 :: c2 :: cs, h => by
    simp only [collapseHy] at h
    split at h
    · exact List.mem_cons_of_mem _ (mem_collapseHy (c2 :: cs) h)
    · rcases List.mem_cons.1 h with h | h
      · exact h ▸ List.mem_cons_self _ _
      · exact List.mem_cons_of_mem _ (mem_collapseHy (c2 :: cs) h)

theorem rstripHy_cons (c : Char) (cs : List Char) :
    rstripHy (c :: cs) =
      match rstripHy cs with
      | [] => if c = '-' then [] else [c]
      | r => c :: r := rfl

theorem mem_rstripHy {a : Char} : ∀ (l : List Char), a ∈ rstripHy l → a ∈ l
  | c :: cs, h => by
    rw [rstripHy_cons] at h
    rcases hr : rstripHy cs with _ | ⟨d, ds⟩
    · rw [hr] at h
      have h2 : a ∈ (if c = '-' then ([] : List Char) else [c]) := h
      by_cases hc : c = '-'
      · simp [hc] at h2
      · simp [hc] at h2
        exact h2 ▸ List.mem_cons_self _ _
    · rw [hr] at h
      have h2 : a ∈ c :: d :: ds := h
      rcases List.mem_cons.1 h2 with h3 | h3
      · exact h3 ▸ List.mem_cons_self _ _
      · exact List.mem_cons_of_mem _ (mem_rstripHy cs (by rw [hr]; exact h3))

theorem head?_collapseHy : ∀ (l : List Char), (collapseHy l).head? = l.head?
  | [] => rfl
  | [_] => rfl
  | c1 :: c2 :: cs => by
    simp only [collapseHy]
    split
    · rename_i hcc
      rw [head?_collapseHy (c2 :: cs)]
      simp only [Bool.and_eq_true, decide_eq_true_eq] at hcc
      simp [hcc.1, hcc.2]
    · rfl

theorem noDD_cons_cons {a b : Char} {t : List Char} (h : noDD (a :: b :: t) = true) :
    (a = '-' && b = '-') = false ∧ noDD (b :: t) = true := by
  simp only [noDD, Bool.and_eq_true, Bool.not_eq_true'] at h
  exact h

theorem noDD_tail {c : Char} {cs : List Char} (h : noDD (c :: cs) = true) : noDD cs = true := by
  cases cs with
  | nil => rfl
  | cons d ds => exact (noDD_cons_cons h).2

theorem noDD_collapseHy : ∀ (l : List Char), noDD (collapseHy l) = true
  | [] => rfl
  | [_] => rfl
  | c1 :: c2 :: cs => by
    simp only [collapseHy]
    split
    · exact noDD_collapseHy (c2 :: cs)
    · rename_i hcc
      have ih := noDD_collapseHy (c2 :: cs)
      have hh := head?_collapseHy (c2 :: cs)
      rcases hcol : collapseHy (c2 :: cs) with _ | ⟨d, ds⟩
      · rfl
      · rw [hcol] at ih hh
        simp only [List.head?_cons, Option.some.injEq] at hh
        subst hh
        simp only [noDD, Bool.and_eq_true, Bool.not_eq_true']
        refine ⟨?_, ih⟩
        simpa using hcc

theorem collapseHy_eq_self : ∀ (l : List Char), noDD l = true → collapseHy l = l
  | [], _ => rfl
  | [_], _ => rfl
  | c1 :: c2 :: cs, h => by
    obtain ⟨hcc, ht⟩ := noDD_cons_cons h
    simp only [collapseHy, hcc]
    simp [collapseHy_eq_self (c2 :: cs) ht]

theorem rstripHy_head? : ∀ (l : List Char), rstripHy l = [] ∨ (rstripHy l).head? = l.head?
  | [] => Or.inl rfl
  | c :: cs => by
    simp only [rstripHy]
    rcases rstripHy cs with _ | ⟨d, ds⟩
    · by_cases hc : c = '-'
      · exact Or.inl (by simp [hc])
      · exact Or.inr (by simp [hc])
    · exact Or.inr rfl

theorem noDD_rstripHy : ∀ (l : List Char), noDD l = true → noDD (rstripHy l) = true
  | [], _ => rfl
  | c :: cs, h => by
    simp only [rstripHy]
    rcases hr : rstripHy cs with _ | ⟨d, ds⟩
    · by_cases hc : c = '-' <;> simp [hc, noDD]
    · have ih := noDD_rstripHy cs (noDD_tail h)
      rw [hr] at ih
      cases cs with
      | nil => simp [rstripHy] at hr
      | cons e es =>
        rcases rstripHy_head? (e :: es) with hnil | hh
        · rw [hr] at hnil; exact absurd hnil (by simp)
        · rw [hr] at hh
          simp only [List.head?_cons, Option.some.injEq] at hh
          subst hh
          simp only [noDD, Bool.and_eq_true, Bool.not_eq_true']
          exact ⟨(noDD_cons_cons h).1, ih⟩

theorem rstripHy_idem : ∀ (l : List Char), rstripHy (rstripHy l) = rstripHy l
  | [] => rfl
  | c :: cs => by
    rw [rstripHy_cons]
    rcases hr : rstripHy cs with _ | ⟨d, ds⟩
    · by_cases hc : c = '-' <;> simp [hc, rstripHy]
    · have ih := rstripHy_idem cs
      rw [hr] at ih
      show rstripHy (c :: d :: ds) = c :: d :: ds
      rw [rstripHy_cons, ih]

theorem matchParen_none {l : List Char} (h : ∀ a ∈ l, a ≠ '(') : matchParen l = none := by
  simp only [matchParen]
  split
  · rename_i r heq
    exfalso
    have : '(' ∈ l.dropWhile isWs := by rw [heq]; exact List.mem_cons_self _ _
    exact h '(' ((List.dropWhile_sublist isWs).subset this) rfl
  · rfl

theorem rmParensF_eq_self : ∀ (fuel : Nat) (l : List Char), (∀ a ∈ l, a ≠ '(') →
    rmParensF fuel l = l
  | 0, _, _ => rfl
  | _ + 1, [], _ => rfl
  | fuel + 1, c :: cs, h => by
    simp only [rmParensF, matchParen_none h]
    rw [rmParensF_eq_self fuel cs fun a ha => h a (List.mem_cons_of_mem _ ha)]

theorem stripOrdinal_eq_self {l : List Char} (h : '.' ∉ l) : stripOrdinal l = l := by
  simp only [stripOrdinal]
  split
  · rfl
  · split
    · rename_i c rest heq
      have hc : c ∈ l := List.drop_subset _ _ (by rw [heq]; exact List.mem_cons_self _ _)
      rw [if_neg]
      intro hcdot
      exact h (hcdot ▸ hc)
    · rfl

theorem mapIf_eq_self (x y : Char) : ∀ (l : List Char), (∀ a ∈ l, a ≠ x) →
    (l.map fun c => if c = x then y else c) = l
  | [], _ => rfl
  | c :: cs, h => by
    simp only [List.map_cons, if_neg (h c (List.mem_cons_self _ _)), List.cons.injEq, true_and]
    exact mapIf_eq_self x y cs fun a ha => h a (List.mem_cons_of_mem _ ha)

/-- Every character surviving `clean_card_name` is a word character or a hyphen. -/
theorem rmParens_eq_self {l : List Char} (h : ∀ a ∈ l, a ≠ '(') : rmParens l = l :=
  rmParensF_eq_self l.length l h

/-- Stripping trailing hyphens is already performed by `clean_card_name`. -/
theorem rstrip_data_clean (s : String) :
    rstripHy (clean_card_name s).data = (clean_card_name s).data := by
  show rstripHy (rstripHy (collapseHy _)) = rstripHy (collapseHy _)
  exact rstripHy_idem _

theorem clean_mem_class (s : String) :
    ∀ a ∈ (clean_card_name s).data, isWord a = true ∨ a = '-' := by
  intro a ha
  simp only [clean_card_name] at ha
  have h5 := List.of_mem_filter (mem_collapseHy _ (mem_rstripHy _ ha))
  simp only [Bool.or_eq_true, decide_eq_true_eq] at h5
  exact h5

/-- Claim C10: `clean_card_name` is idempotent. -/
theorem C10_clean_card_name_idempotent (s : String) :
    clean_card_name (clean_card_name s) = clean_card_name s := by
  have hclass := clean_mem_class s
  have hnoDD : noDD (clean_card_name s).data = true := by
    simp only [clean_card_name]
    exact noDD_rstripHy _ (noDD_collapseHy _)
  have hchar : ∀ (x : Char), isWord x = false → x ≠ '-' →
      ∀ a ∈ (clean_card_name s).data, a ≠ x := by
    intro x hx1 hx2 a ha hax
    rcases hclass a ha with h | h
    · rw [hax, hx1] at h; exact Bool.false_ne_true h
    · exact hx2 (hax ▸ h)
  conv_lhs => rw [clean_card_name]
  rw [rmParens_eq_self (hchar '(' (by decide) (by decide))]
  rw [stripOrdinal_eq_self (fun hdot => by
    rcases hclass '.' hdot with h | h
    · exact absurd h (by decide)
    · exact absurd h (by decide))]
  rw [mapIf_eq_self apos '-' _ (hchar apos (by decide) (by decide))]
  rw [mapIf_eq_self ' ' '-' _ (hchar ' ' (by decide) (by decide))]
  rw [List.filter_eq_self.2 (fun a ha => by
    rcases hclass a ha with h | h
    · simp [h]
    · simp [h])]
  rw [collapseHy_eq_self _ hnoDD, rstrip_data_clean]

/-! ### Claims about the parser -/

/-- Claim C1, counterexample: the line `1. Sample Dragon (ID: 900001) (2 copies)`
under the Monster section does NOT parse to name `Sample Dragon` with
identifier `900001`; the identifier annotation in the code uses the literal
marker `EDOPro:`, so the `(ID: ...)` text is absorbed into the name and no
identifier is extracted. -/
theorem C1_counterexample :
    parse_deck_new_format ["MONSTER CARDS:", "1. Sample Dragon (ID: 900001) (2 copies)"] =
      [{ name := "Sample Dragon (ID: 900001)", type := "Monster", count := 2,
         edopro_id := none }] ∧
    "Sample Dragon (ID: 900001)" ≠ "Sample Dragon" := by
  constructor
  · decide
  · decide

/-- Claim C1, amended: with the marker the code actually uses, the line
`1. Sample Dragon (EDOPro: 900001) (2 copies)` under the Monster section
parses to name `Sample Dragon`, identifier `900001`, count 2, section
Monster; the ordinal prefix is required by the pattern but not stored in
the record. -/
theorem C1_amended :
    parse_deck_new_format ["MONSTER CARDS:", "1. Sample Dragon (EDOPro: 900001) (2 copies)"] =
      [{ name := "Sample Dragon", type := "Monster", count := 2,
         edopro_id := some ("900001") }] := by
  decide

/-- Claim C3, counterexample: the header `EXTRA DECK:` is mapped to the
section tag `Monster`, the very same tag produced under `MONSTER CARDS:`;
there is no distinct `ExtraDeck` section kind in the code. -/
theorem C3_counterexample :
    (parse_deck_new_format ["EXTRA DECK:", "1. Blue-Eyes Ultimate Dragon"]).map Card.type =
      ["Monster"] ∧
    (parse_deck_new_format ["MONSTER CARDS:", "1. Blue-Eyes Ultimate Dragon"]).map Card.type =
      ["Monster"] := by
  constructor
  · decide
  · decide

/-- Claim C3, amended: the headers `EXTRA DECK:`, `FUSION MONSTERS:`,
`RITUAL MONSTERS:` and `MONSTER CARDS:` all set the current section to the
same `Monster` tag, so entries under `EXTRA DECK:` carry the same section
tag as entries under `MONSTER CARDS:`. -/
theorem C3_amended (rest : List String) (current : Option String) :
    parseGo ("EXTRA DECK:" :: rest) current = parseGo rest (some ("Monster")) ∧
    parseGo ("FUSION MONSTERS:" :: rest) current = parseGo rest (some ("Monster")) ∧
    parseGo ("RITUAL MONSTERS:" :: rest) current = parseGo rest (some ("Monster")) ∧
    parseGo ("MONSTER CARDS:" :: rest) current = parseGo rest (some ("Monster")) := by
  refine ⟨?_, ?_, ?_, ?_⟩ <;> rfl

/-- Claim C8, counterexample: a line with the ordinal-dot prefix that fails
full extraction (here `1.`) is silently dropped: the parse result is
identical to the result without the line, and the parser's only output is
the card list, so no parse-anomaly diagnostic is recorded or surfaced. -/
theorem C8_counterexample :
    parse_deck_new_format ["MONSTER CARDS:", "1."] = parse_deck_new_format ["MONSTER CARDS:"] ∧
    parse_deck_new_format ["MONSTER CARDS:"] = [] := by
  constructor
  · decide
  · decide

/-- Claim C8, amended: a line with the ordinal-dot prefix that fails full
extraction is skipped silently (no diagnostic of any kind is recorded) and
parsing continues with subsequent lines. -/
theorem C8_amended (rest : List String) (current : Option String) :
    parseGo ("1." :: rest) current = parseGo rest current ∧
    parse_deck_new_format ["MONSTER CARDS:", "1.", "2. Alpha"] =
      [{ name := "Alpha", type := "Monster", count := 1, edopro_id := none }] := by
  constructor
  · cases current <;> rfl
  · decide

/-! ### Claims about the resolver -/

/-- Claim C5, counterexample: the normalization of `Winged Beast\u0027s Roar` is
`Winged-Beast-s-Roar` (the apostrophe becomes its own separator), not
`Winged-Beasts-Roar`, and against an asset index containing only the key
`Winged-Beasts-Roar` the name-based strategies find nothing. -/
theorem C5_counterexample :
    clean_card_name ("Winged Beast\u0027s Roar") = "Winged-Beast-s-Roar" ∧
    "Winged-Beast-s-Roar" ≠ "Winged-Beasts-Roar" ∧
    find_image_file ["arts/Winged-Beasts-Roar.jpg"] "Winged Beast\u0027s Roar" "arts" none =
      none := by
  refine ⟨?_, ?_, ?_⟩ <;> decide

/-- Claim C5, amended: the entry `Winged Beast\u0027s Roar` with no identifier
resolves by the name-normalized-exact strategy against an asset index
containing the key `Winged-Beast-s-Roar`, the actual normalization of the
name. -/
theorem C5_amended :
    find_image_file ["arts/Winged-Beast-s-Roar.jpg"] "Winged Beast\u0027s Roar" "arts" none =
      some ("arts/Winged-Beast-s-Roar.jpg") ∧
    clean_card_name ("Winged Beast\u0027s Roar") = "Winged-Beast-s-Roar" := by
  constructor
  · decide
  · decide

/-- Claim C4, counterexample: for an image directory whose path does not
contain `Rush-HD`, the identifier strategy is skipped even though the
identifier's asset `cards/123.png` exists in the index, and the resolver
returns the name-based asset `cards/Alpha.jpg` instead. -/
theorem C4_counterexample :
    ("cards/123.png" ∈ ["cards/123.png", "cards/Alpha.jpg"]) ∧
    pathJoin ("cards") ("123" ++ ".png") = "cards/123.png" ∧
    find_image_file ["cards/123.png", "cards/Alpha.jpg"] "Alpha" "cards" (some ("123")) =
      some ("cards/Alpha.jpg") := by
  refine ⟨?_, ?_, ?_⟩ <;> decide

/-- Claim C4, amended: when the identifier is nonempty (the line-114
truthiness check), the image directory path contains `Rush-HD`, and the
identifier's asset exists, the resolver returns the identifier-exact
asset, regardless of the card name and of any name-based index entries. -/
theorem C4_amended (files : List String) (card_name image_dir : String) (id : String)
    (hid : id.isEmpty = false)
    (hRush : strContains image_dir ("Rush-HD") = true)
    (hMem : pathJoin image_dir (id ++ ".png") ∈ files) :
    find_image_file files card_name image_dir (some id) =
      some (pathJoin image_dir (id ++ ".png")) := by
  simp [find_image_file, hid, hRush, hMem]

/-- Witness for `C4_amended` at a concrete input. -/
theorem C4_amended_witness :
    find_image_file [pathJoin ("Rush-HD") ("123" ++ ".png")] "Alpha" "Rush-HD" (some ("123")) =
      some (pathJoin ("Rush-HD") ("123" ++ ".png")) :=
  C4_amended [pathJoin ("Rush-HD") ("123" ++ ".png")] "Alpha" "Rush-HD" "123"
    (by decide) (by decide) (by decide)

/-! ### Supporting lemmas about the resolver and the grouping loop -/

theorem pathJoin_ne_empty {d f : String} (hf : f.data ≠ []) : (pathJoin d f).data ≠ [] := by
  simp only [pathJoin]
  split
  · exact hf
  · split
    · exact hf
    · split
      · simp [hf]
      · simp

theorem special_mappings_data {k fn : String} (h : special_mappings k = some fn) :
    fn.data ≠ [] := by
  simp only [special_mappings] at h
  split at h
  · injection h with h2; subst h2; decide
  · split at h
    · injection h with h2; subst h2; decide
    · split at h
      · injection h with h2; subst h2; decide
      · split at h
        · injection h with h2; subst h2; decide
        · split at h
          · injection h with h2; subst h2; decide
          · split at h
            · injection h with h2; subst h2; decide
            · split at h
              · injection h with h2; subst h2; decide
              · split at h
                · injection h with h2; subst h2; decide
                · exact absurd h (by simp)

/-- Every successful resolution returns one of the five strategy paths. -/
theorem find_image_shapes {files : List String} {nm dir : String} {ido : Option String}
    {p : String} (h : find_image_file files nm dir ido = some p) :
    (∃ i, p = pathJoin dir (i ++ ".png")) ∨
    p = pathJoin dir (clean_card_name nm ++ ".jpg") ∨
    p = pathJoin dir (clean_card_name nm ++ "s.jpg") ∨
    p = pathJoin dir (clean_card_name nm ++ "-alt-art.jpg") ∨
    (∃ fn, special_mappings (clean_card_name nm) = some fn ∧ p = pathJoin dir fn) := by
  simp only [find_image_file] at h
  split at h
  · rename_i p2 heq
    injection h with h2
    subst h2
    split at heq
    · rename_i i
      split at heq
      · exact absurd heq (by simp)
      · split at heq
        · split at heq
          · injection heq with h3
            exact Or.inl ⟨i, h3.symm⟩
          · exact absurd heq (by simp)
        · exact absurd heq (by simp)
    · exact absurd heq (by simp)
  · split at h
    · injection h with h2; exact Or.inr (Or.inl h2.symm)
    · split at h
      · injection h with h2; exact Or.inr (Or.inr (Or.inl h2.symm))
      · split at h
        · injection h with h2; exact Or.inr (Or.inr (Or.inr (Or.inl h2.symm)))
        · split at h
          · rename_i fn hfn
            split at h
            · injection h with h2
              exact Or.inr (Or.inr (Or.inr (Or.inr ⟨fn, hfn, h2.symm⟩)))
            · exact absurd h (by simp)
          · exact absurd h (by simp)

/-- A successfully resolved path is never the empty string (all strategy
paths end in a nonempty file name). -/
theorem find_image_ne_empty {files : List String} {nm dir : String} {ido : Option String}
    {p : String} (h : find_image_file files nm dir ido = some p) : p.isEmpty = false := by
  have hd : p.data ≠ [] := by
    rcases find_image_shapes h with ⟨i, rfl⟩ | rfl | rfl | rfl | ⟨fn, hfn, rfl⟩
    · exact pathJoin_ne_empty (by simp [String.data_append])
    · exact pathJoin_ne_empty (by simp [String.data_append])
    · exact pathJoin_ne_empty (by simp [String.data_append])
    · exact pathJoin_ne_empty (by simp [String.data_append])
    · exact pathJoin_ne_empty (special_mappings_data hfn)
  cases hb : p.isEmpty
  · rfl
  · obtain rfl := (String.isEmpty_iff p).1 hb
    exact absurd rfl hd

/-- Two placed items are distinct for dedup purposes: their names differ,
and their asset paths differ whenever both are present. -/
def DistinctR (a b : CardItem) : Prop :=
  a.name ≠ b.name ∧ ∀ p q, a.image_path = some p → b.image_path = some q → p ≠ q

theorem distinctR_symm {a b : CardItem} (h : DistinctR a b) : DistinctR b a :=
  ⟨h.1.symm, fun p q hp hq => (h.2 q p hq hp).symm⟩

/-- The invariant maintained by the grouping loop: placed names are
registered in `seen_cards`, placed asset paths in `seen_images`, and the
placed items are pairwise distinct. -/
def DedupInv (st : GState) : Prop :=
  (∀ i ∈ placedItems st, i.name ∈ st.seen_cards) ∧
  (∀ i ∈ placedItems st, ∀ p, i.image_path = some p → p ∈ st.seen_images) ∧
  (placedItems st).Pairwise DistinctR

theorem cons_append_perm {α : Type} (i : α) (l : List α) : (i :: l).Perm (l ++ [i]) := by
  have h := @List.perm_append_comm α [i] l
  simpa using h

/-- `addItem` either leaves the placed items unchanged (unknown type) or
appends the new item, up to permutation. -/
theorem placed_addItem (st : GState) (ty : String) (item : CardItem) :
    placedItems (addItem st ty item) = placedItems st ∨
    (placedItems (addItem st ty item)).Perm (placedItems st ++ [item]) := by
  by_cases h1 : ty = "Monster"
  · right
    simp only [addItem, if_pos h1, placedItems]
    simp only [List.append_assoc]
    refine List.Perm.append_left st.monster_cards ?_
    simpa [List.append_assoc] using
      cons_append_perm item (st.spell_cards ++ st.trap_cards)
  · by_cases h2 : ty = "Spell"
    · right
      simp only [addItem, if_neg h1, if_pos h2, placedItems]
      simp only [List.append_assoc]
      refine List.Perm.append_left st.monster_cards ?_
      refine List.Perm.append_left st.spell_cards ?_
      exact cons_append_perm item st.trap_cards
    · by_cases h3 : ty = "Trap"
      · right
        simp only [addItem, if_neg h1, if_neg h2, if_pos h3, placedItems]
        simp [List.append_assoc]
      · left
        simp only [addItem, if_neg h1, if_neg h2, if_neg h3]

theorem mem_placed_addItem {st : GState} {ty : String} {item j : CardItem}
    (h : j ∈ placedItems (addItem st ty item)) : j ∈ placedItems st ∨ j = item := by
  rcases placed_addItem st ty item with heq | hperm
  · rw [heq] at h; exact Or.inl h
  · rcases List.mem_append.1 (hperm.mem_iff.1 h) with h2 | h2
    · exact Or.inl h2
    · exact Or.inr (List.mem_singleton.1 h2)

/-- Placing an item whose name is fresh and whose asset (if any) is fresh
preserves the dedup invariant, for the state whose seen-sets already
include the new item. -/
theorem dedupInv_addItem {st : GState} {ty : String} {item : CardItem}
    (h1 : ∀ i ∈ placedItems st, i.name ∈ st.seen_cards)
    (h2 : ∀ i ∈ placedItems st, ∀ p, i.image_path = some p → p ∈ st.seen_images)
    (h3 : (placedItems st).Pairwise DistinctR)
    (hd : ∀ i ∈ placedItems st, DistinctR i item)
    (hn : item.name ∈ st.seen_cards)
    (hi : ∀ q, item.image_path = some q → q ∈ st.seen_images) :
    DedupInv (addItem st ty item) := by
  have hmem : ∀ j ∈ placedItems (addItem st ty item), j ∈ placedItems st ∨ j = item :=
    fun j hj => mem_placed_addItem hj
  have hseen : (addItem st ty item).seen_cards = st.seen_cards := by
    simp only [addItem]
    split
    · rfl
    · split
      · rfl
      · split
        · rfl
        · rfl
  have himg : (addItem st ty item).seen_images = st.seen_images := by
    simp only [addItem]
    split
    · rfl
    · split
      · rfl
      · split
        · rfl
        · rfl
  refine ⟨?_, ?_, ?_⟩
  · intro j hj
    rw [hseen]
    rcases hmem j hj with h | rfl
    · exact h1 j h
    · exact hn
  · intro j hj p hp
    rw [himg]
    rcases hmem j hj with h | rfl
    · exact h2 j h p hp
    · exact hi p hp
  · rcases placed_addItem st ty item with heq | hperm
    · rw [heq]; exact h3
    · refine (hperm.pairwise_iff (fun hab => distinctR_symm hab)).2 ?_
      refine List.pairwise_append.2 ⟨h3, List.pairwise_singleton _ _, ?_⟩
      intro a ha b hb
      rw [List.mem_singleton.1 hb]
      exact hd a ha

/-- One grouping step preserves the dedup invariant. -/
theorem stepCard_dedupInv (files : List String) (image_dir : String) (st : GState) (c : Card)
    (h : DedupInv st) : DedupInv (stepCard files image_dir st c) := by
  obtain ⟨h1, h2, h3⟩ := h
  by_cases hseen : c.name ∈ st.seen_cards
  · simp only [stepCard, if_pos hseen]
    exact ⟨h1, h2, h3⟩
  · rcases hI : find_image_file files c.name image_dir c.edopro_id with _ | p
    · -- no asset: the description branch, with an image-free item
      simp only [stepCard, if_neg hseen, hI, descrStep]
      split
      · refine dedupInv_addItem (fun i hi => List.mem_cons_of_mem _ (h1 i hi))
          (fun i hi => h2 i hi) h3 ?_ ?_ ?_
        · intro i hi
          refine ⟨fun he => hseen ((show i.name = c.name from he) ▸ h1 i hi), ?_⟩
          intro p q _ hq
          simp at hq
        · exact List.mem_cons_self _ _
        · intro q hq
          simp at hq
      · exact ⟨h1, h2, h3⟩
    · have hpe : p.isEmpty = false := find_image_ne_empty hI
      by_cases hdup : p ∈ st.seen_images
      · simp only [stepCard, if_neg hseen, hI, hpe, Bool.false_eq_true, if_false,
          if_pos hdup]
        exact ⟨h1, h2, h3⟩
      · simp only [stepCard, if_neg hseen, hI, hpe, Bool.false_eq_true, if_false,
          if_neg hdup]
        refine dedupInv_addItem ?_ ?_ h3 ?_ ?_ ?_
        · intro i hi
          exact List.mem_cons_of_mem _ (h1 i hi)
        · intro i hi q hq
          exact List.mem_cons_of_mem _ (h2 i hi q hq)
        · intro i hi
          refine ⟨fun he => hseen ((show i.name = c.name from he) ▸ h1 i hi), ?_⟩
          intro q r hq hr
          simp only [Option.some.injEq] at hr
          intro hqr
          exact hdup (hr ▸ hqr ▸ h2 i hi q hq)
        · exact List.mem_cons_self _ _
        · intro q hq
          simp only [Option.some.injEq] at hq
          exact hq ▸ List.mem_cons_self _ _

theorem processCards_dedupInv (files : List String) (image_dir : String) (cards : List Card) :
    DedupInv (processCards files image_dir cards) := by
  suffices h : ∀ (cs : List Card) (st : GState), DedupInv st →
      DedupInv (cs.foldl (stepCard files image_dir) st) by
    refine h cards initState ⟨?_, ?_, ?_⟩ <;> simp [placedItems, initState]
  intro cs
  induction cs with
  | nil => exact fun st hst => hst
  | cons c t ih =>
    intro st hst
    exact ih _ (stepCard_dedupInv files image_dir st c hst)

/-! ### Claims about the layout -/

/-- Claim C6: for every input deck, asset list and image directory, the
items placed in the layout are pairwise distinct: no two share a name, and
no two share a resolved asset path (an entry whose name or asset path
matches an earlier placed entry is skipped by the loop, first occurrence
winning). -/
theorem C6_dedup_sound (files : List String) (image_dir : String) (cards : List Card) :
    (placedItems (processCards files image_dir cards)).Pairwise DistinctR :=
  (processCards_dedupInv files image_dir cards).2.2

/-- One grouping step only places items that carry an image or a description. -/
theorem stepCard_content (files : List String) (image_dir : String) (st : GState) (c : Card)
    (hst : ∀ i ∈ placedItems st, pyTruthyS i.image_path = true ∨ pyTruthyS i.description = true) :
    ∀ i ∈ placedItems (stepCard files image_dir st c),
      pyTruthyS i.image_path = true ∨ pyTruthyS i.description = true := by
  intro i hi
  by_cases hseen : c.name ∈ st.seen_cards
  · simp only [stepCard, if_pos hseen] at hi
    exact hst i hi
  · rcases hI : find_image_file files c.name image_dir c.edopro_id with _ | p
    · simp only [stepCard, if_neg hseen, hI, descrStep] at hi
      split at hi
      · rename_i hdesc
        rcases mem_placed_addItem hi with h | rfl
        · exact hst i h
        · exact Or.inr hdesc
      · exact hst i hi
    · have hpe : p.isEmpty = false := find_image_ne_empty hI
      by_cases hdup : p ∈ st.seen_images
      · simp only [stepCard, if_neg hseen, hI, hpe, Bool.false_eq_true, if_false,
          if_pos hdup] at hi
        exact hst i hi
      · simp only [stepCard, if_neg hseen, hI, hpe, Bool.false_eq_true, if_false,
          if_neg hdup] at hi
        rcases mem_placed_addItem hi with h | rfl
        · exact hst i h
        · left
          simp [pyTruthyS, hpe]

/-- Claim C2, amended: an entry for which no asset strategy succeeds and no
description exists is reported in the missing-card list but does NOT occupy
a layout slot; equivalently, every item actually placed in the layout has
an asset or a description, so no explicit no-content placeholder exists. -/
theorem C2_amended (files : List String) (image_dir : String) (cards : List Card) :
    ∀ item ∈ placedItems (processCards files image_dir cards),
      pyTruthyS item.image_path = true ∨ pyTruthyS item.description = true := by
  suffices h : ∀ (cs : List Card) (st : GState),
      (∀ i ∈ placedItems st, pyTruthyS i.image_path = true ∨ pyTruthyS i.description = true) →
      ∀ i ∈ placedItems (cs.foldl (stepCard files image_dir) st),
        pyTruthyS i.image_path = true ∨ pyTruthyS i.description = true by
    exact h cards initState (by simp [placedItems, initState])
  intro cs
  induction cs with
  | nil => exact fun st hst => hst
  | cons c t ih => exact fun st hst => ih _ (stepCard_content files image_dir st c hst)

/-- Witness for `C2_amended` at a concrete input: the description-only card
`Phoenix Dragoon` is placed and has content. -/
theorem C2_amended_witness :
    pyTruthyS ({ name := "Phoenix Dragoon", image_path := none,
                 description := get_card_descriptions ("Phoenix Dragoon") } : CardItem).image_path =
        true ∨
    pyTruthyS ({ name := "Phoenix Dragoon", image_path := none,
                 description := get_card_descriptions ("Phoenix Dragoon") } : CardItem).description =
        true :=
  C2_amended [] "d"
    [{ name := "Phoenix Dragoon", type := "Monster", count := 1, edopro_id := none }]
    _ (by decide)

/-- Claim C2, counterexample: a card with no art and no description (name
`Zzz Unknown` against an empty asset index) is reported as missing but the
layout plan is empty — the entry does not occupy any slot, contradicting
the claim that it remains as an explicit placeholder. -/
theorem C2_counterexample :
    generate_deck_pdf [] "dir"
      [{ name := "Zzz Unknown", type := "Monster", count := 1, edopro_id := none }] =
    ({ monster_cards := [], spell_cards := [], trap_cards := [],
       seen_cards := [], seen_images := [], missing_cards := ["Zzz Unknown"] }, []) := by
  decide

theorem chunksOf4_mem_length {α : Type} : ∀ (l : List α) (pg : List α),
    pg ∈ chunksOf4 l → pg.length ≤ 4
  | [], pg, h => by simp [chunksOf4] at h
  | [a], pg, h => by
    simp only [chunksOf4, List.mem_singleton] at h
    subst h; simp
  | [a, b], pg, h => by
    simp only [chunksOf4, List.mem_singleton] at h
    subst h; simp
  | [a, b, c], pg, h => by
    simp only [chunksOf4, List.mem_singleton] at h
    subst h; simp
  | a :: b :: c :: d :: rest, pg, h => by
    simp only [chunksOf4, List.mem_cons] at h
    rcases h with rfl | h
    · simp
    · exact chunksOf4_mem_length rest pg h

theorem sectionPages_length {ty : String} {items : List CardItem} {pg : String × List CardItem}
    (h : pg ∈ sectionPages ty items) : pg.2.length ≤ 4 := by
  simp only [sectionPages] at h
  split at h
  · simp at h
  · rcases List.mem_map.1 h with ⟨c, hc, rfl⟩
    exact chunksOf4_mem_length items c hc

/-- Claim C7: for every input deck, every grid page of the produced layout
holds at most 4 card slots (the paginator consumes each section in chunks
of four). -/
theorem C7_page_capacity (files : List String) (image_dir : String) (cards : List Card)
    (pg : String × List CardItem)
    (hpg : pg ∈ layoutPages (processCards files image_dir cards)) :
    pg.2.length ≤ 4 := by
  simp only [layoutPages, List.mem_append] at hpg
  rcases hpg with (h | h) | h <;> exact sectionPages_length h

/-- Witness for `C7_page_capacity` at a concrete one-card deck. -/
theorem C7_page_capacity_witness :
    (("Monster", [({ name := "Alpha", image_path := some ("dir/Alpha.jpg"),
                     description := none } : CardItem)]) ∈
      layoutPages (processCards ["dir/Alpha.jpg"] "dir"
        [{ name := "Alpha", type := "Monster", count := 1, edopro_id := none }])) ∧
    (("Monster", [({ name := "Alpha", image_path := some ("dir/Alpha.jpg"),
                     description := none } : CardItem)]) : String × List CardItem).2.length ≤ 4 :=
  ⟨by decide,
   C7_page_capacity ["dir/Alpha.jpg"] "dir"
     [{ name := "Alpha", type := "Monster", count := 1, edopro_id := none }]
     _ (by decide)⟩

theorem stepCard_congr (files : List String) (image_dir : String) (st : GState)
    (c1 c2 : Card) (h : cardKey c1 = cardKey c2) :
    stepCard files image_dir st c1 = stepCard files image_dir st c2 := by
  obtain ⟨n1, t1, k1, i1⟩ := c1
  obtain ⟨n2, t2, k2, i2⟩ := c2
  simp only [cardKey, Prod.mk.injEq] at h
  obtain ⟨ha, hb, hc⟩ := h
  subst ha; subst hb; subst hc
  rfl

theorem foldl_stepCard_congr (files : List String) (image_dir : String) :
    ∀ (cs1 cs2 : List Card) (st : GState), cs1.map cardKey = cs2.map cardKey →
      cs1.foldl (stepCard files image_dir) st = cs2.foldl (stepCard files image_dir) st
  | [], [], _, _ => rfl
  | [], _ :: _, _, h => by simp at h
  | _ :: _, [], _, h => by simp at h
  | c1 :: t1, c2 :: t2, st, h => by
    simp only [List.map_cons, List.cons.injEq] at h
    simp only [List.foldl_cons]
    rw [stepCard_congr files image_dir st c1 c2 h.1]
    exact foldl_stepCard_congr files image_dir t1 t2 _ h.2

/-- Claim C9: the count field of parsed cards has no effect on the produced
layout: two parsed card sequences agreeing on name, type, and identifier
(differing only in counts) produce identical grouping states and identical
page structures. -/
theorem C9_count_irrelevant (files : List String) (image_dir : String)
    (cards1 cards2 : List Card) (h : cards1.map cardKey = cards2.map cardKey) :
    generate_deck_pdf files image_dir cards1 = generate_deck_pdf files image_dir cards2 := by
  have hp : processCards files image_dir cards1 = processCards files image_dir cards2 :=
    foldl_stepCard_congr files image_dir cards1 cards2 initState h
  simp [generate_deck_pdf, hp]

/-- Witness for `C9_count_irrelevant`: the same card listed with counts 3
and 1 produces the same output. -/
theorem C9_count_irrelevant_witness :
    [({ name := "Beta", type := "Monster", count := 3, edopro_id := none } : Card)].map cardKey =
      [({ name := "Beta", type := "Monster", count := 1, edopro_id := none } : Card)].map cardKey ∧
    generate_deck_pdf [] "d"
        [{ name := "Beta", type := "Monster", count := 3, edopro_id := none }] =
      generate_deck_pdf [] "d"
        [{ name := "Beta", type := "Monster", count := 1, edopro_id := none }] :=
  ⟨by decide,
   C9_count_irrelevant [] "d"
     [{ name := "Beta", type := "Monster", count := 3, edopro_id := none }]
     [{ name := "Beta", type := "Monster", count := 1, edopro_id := none }]
     (by decide)⟩

